import Mathlib

/-!
Verification of the MySQL dialect of the duckling connector
(src/connector/src/dialect/mysql/mod.rs) against its specification.

The Rust source is shallowly embedded below. Conventions of the embedding:

* `mysql::Value` (the driver's tagged cell value, called "Canonical Value"
  by the spec) becomes the inductive `Value`. Machine integers are carried
  as `Int`/`Nat`; byte strings as `List Nat` (byte values). Machine floats
  are never inspected arithmetically by the code under verification, so
  `f32`/`f64` payloads are carried as uninterpreted bit patterns (`Nat`)
  and converted float results as the symbolic carrier `MFloat`.
* Rust functions that can panic (the driver's `from_value`, which is
  `from_value_opt(..).unwrap()` and panics when the conversion fails, and
  out-of-bounds indexing) are embedded in `QResult`, whose `panic`
  constructor marks an aborted computation and whose `err` constructor
  marks a returned `Err` value, carrying the error message.
* Driver I/O is made explicit: a function that runs SQL over a connection
  takes the rows the driver would stream back as an argument.
-/

/-- Outcome of a Rust computation: a returned value, a returned error
(`anyhow::Result::Err` or an arrow construction error, with its message),
or an aborted computation (a Rust panic). -/
inductive QResult (α : Type) where
  | ok (a : α)
  | err (msg : String)
  | panic
deriving Repr, DecidableEq

/-- Map over the `ok` value of a `QResult`. -/
def QResult.map {α β : Type} (f : α → β) : QResult α → QResult β
  | .ok a => .ok (f a)
  | .err m => .err m
  | .panic => .panic

/-- Embedding of `mysql::Value`, the driver-level tagged union for one cell
("Canonical Value" in the spec): NULL, raw bytes, signed and unsigned
integers, two float widths and the date/time variants.  Float payloads are
uninterpreted bit patterns; date/time payloads are the driver's numeric
fields. -/
inductive Value where
  | NULL
  | Bytes (bytes : List Nat)
  | Int (i : Int)
  | UInt (u : Nat)
  | Float (bits : Nat)
  | Double (bits : Nat)
  | Date (year month day hour minute second micro : Nat)
  | Time (negative : Bool) (days hours minutes seconds micro : Nat)
deriving Repr, DecidableEq

/-- Largest `i64` value, `2^63 - 1`. -/
def i64Max : Nat := 9223372036854775807

/-- All-decimal-digit parse of a byte list (ASCII, at least one digit). -/
def parseDigits : List Nat → Option Nat
  | [] => none
  | bs => go bs 0
where
  go : List Nat → Nat → Option Nat
    | [], acc => some acc
    | b :: rest, acc =>
      if 48 ≤ b ∧ b ≤ 57 then go rest (acc * 10 + (b - 48)) else none

/-- Byte-string to `i64` parse used by the driver for `Value::Bytes`
(`btoi`): an optional `+`/`-` sign followed by decimal digits, the whole
buffer consumed, value within `i64` range; anything else fails. -/
def btoiI64 (b : List Nat) : Option Int :=
  match b with
  | 43 :: rest => (parseDigits rest).bind fun n =>
      if n ≤ i64Max then some (Int.ofNat n) else none
  | 45 :: rest => (parseDigits rest).bind fun n =>
      if n ≤ i64Max + 1 then some (-(Int.ofNat n)) else none
  | _ => (parseDigits b).bind fun n =>
      if n ≤ i64Max then some (Int.ofNat n) else none

/-- Byte-string to `u64`/`usize` parse used by the driver (`btoi` for an
unsigned target): optional `+` sign, decimal digits, `u64` range. -/
def btoiU64 (b : List Nat) : Option Nat :=
  match b with
  | 43 :: rest => (parseDigits rest).bind fun n =>
      if n < 18446744073709551616 then some n else none
  | _ => (parseDigits b).bind fun n =>
      if n < 18446744073709551616 then some n else none

/-- Embedding of `convert_to_i64`. The source matches on the variant:
`Int`, `UInt` and `Bytes` go through the driver's `from_value::<i64>`
(which panics when the conversion fails: a `UInt` above `i64::MAX` or a
byte string that does not parse as an integer), every other variant
(`NULL`, `Float`, `Double`, `Date`, `Time`) yields `None`. -/
def convert_to_i64 : Value → QResult (Option Int)
  | .Int i => .ok (some i)
  | .UInt u => if u ≤ i64Max then .ok (some (Int.ofNat u)) else .panic
  | .Bytes b =>
    match btoiI64 b with
    | some n => .ok (some n)
    | none => .panic
  | _ => .ok none

/-- Symbolic carrier for converted `f64` results; the code never inspects
float contents, so results are kept as the value they were converted from. -/
inductive MFloat where
  | ofF32 (bits : Nat)
  | ofF64 (bits : Nat)
  | ofBytes (bytes : List Nat)
deriving Repr, DecidableEq

/-- Lower-case an ASCII byte. -/
def lowerByte (b : Nat) : Nat := if 65 ≤ b ∧ b ≤ 90 then b + 32 else b

/-- Does a byte list spell one of Rust's special float literals
(`inf`, `infinity`, `nan`), case-insensitively? -/
def isSpecialFloat (b : List Nat) : Bool :=
  let l := b.map lowerByte
  l = [105, 110, 102] ∨ l = [105, 110, 102, 105, 110, 105, 116, 121] ∨
    l = [110, 97, 110]

/-- Is every byte an ASCII decimal digit? -/
def allDigits (b : List Nat) : Bool := b.all fun c => 48 ≤ c ∧ c ≤ 57

/-- Mantissa of a float literal: digits, optionally with one `.`, with at
least one digit overall. -/
def isMantissa (b : List Nat) : Bool :=
  match b.splitOn 46 with
  | [d] => d ≠ [] ∧ allDigits d
  | [d1, d2] => (d1 ≠ [] ∨ d2 ≠ []) ∧ allDigits d1 ∧ allDigits d2
  | _ => false

/-- Exponent part of a float literal after the `e`/`E`: optional sign then
at least one digit. -/
def isExponent (b : List Nat) : Bool :=
  match b with
  | 43 :: rest => rest ≠ [] ∧ allDigits rest
  | 45 :: rest => rest ≠ [] ∧ allDigits rest
  | _ => b ≠ [] ∧ allDigits b

/-- Strip one optional leading `+`/`-` sign. -/
def dropSign (b : List Nat) : List Nat :=
  match b with
  | 43 :: rest => rest
  | 45 :: rest => rest
  | _ => b

/-- Split a byte list at the first `e`/`E`, if any. -/
def splitAtExp : List Nat → Option (List Nat × List Nat)
  | [] => none
  | b :: rest =>
    if b = 101 ∨ b = 69 then some ([], rest)
    else (splitAtExp rest).map fun p => (b :: p.1, p.2)

/-- Does a byte list parse as an `f64` under Rust's grammar (optional sign,
special literal or mantissa with optional exponent)? -/
def parsesAsF64 (b : List Nat) : Bool :=
  let t := dropSign b
  isSpecialFloat t ||
    match splitAtExp t with
    | none => isMantissa t
    | some (m, e) => isMantissa m && isExponent e

/-- Embedding of `convert_to_f64`: `Float`, `Double` and `Bytes` go through
the driver's `from_value::<f64>` (panicking when bytes do not parse as a
float); every other variant yields `None`. -/
def convert_to_f64 : Value → QResult (Option MFloat)
  | .Float bits => .ok (some (.ofF32 bits))
  | .Double bits => .ok (some (.ofF64 bits))
  | .Bytes b => if parsesAsF64 b then .ok (some (.ofBytes b)) else .panic
  | _ => .ok none

/-- Is a byte a UTF-8 continuation byte (`10xxxxxx`)? -/
def isCont (b : Nat) : Bool := 128 ≤ b ∧ b ≤ 191

/-- Validating UTF-8 decoder over byte values, embedding Rust's
`String::from_utf8` (rejecting truncated sequences, overlong encodings,
surrogates and code points above `0x10FFFF`). -/
def utf8Decode : List Nat → Option (List Char)
  | [] => some []
  | b :: rest =>
    if b ≤ 127 then
      (utf8Decode rest).map fun cs => Char.ofNat b :: cs
    else if 194 ≤ b ∧ b ≤ 223 then
      match rest with
      | c1 :: rest2 =>
        if isCont c1 then
          (utf8Decode rest2).map fun cs =>
            Char.ofNat ((b - 192) * 64 + (c1 - 128)) :: cs
        else none
      | _ => none
    else if 224 ≤ b ∧ b ≤ 239 then
      match rest with
      | c1 :: c2 :: rest3 =>
        let okFirst :=
          if b = 224 then 160 ≤ c1 ∧ c1 ≤ 191
          else if b = 237 then 128 ≤ c1 ∧ c1 ≤ 159
          else isCont c1
        if okFirst ∧ isCont c2 then
          (utf8Decode rest3).map fun cs =>
            Char.ofNat ((b - 224) * 4096 + (c1 - 128) * 64 + (c2 - 128)) :: cs
        else none
      | _ => none
    else if 240 ≤ b ∧ b ≤ 244 then
      match rest with
      | c1 :: c2 :: c3 :: rest4 =>
        let okFirst :=
          if b = 240 then 144 ≤ c1 ∧ c1 ≤ 191
          else if b = 244 then 128 ≤ c1 ∧ c1 ≤ 143
          else isCont c1
        if okFirst ∧ isCont c2 ∧ isCont c3 then
          (utf8Decode rest4).map fun cs =>
            Char.ofNat
              ((b - 240) * 262144 + (c1 - 128) * 4096 + (c2 - 128) * 64 +
                (c3 - 128)) :: cs
        else none
      | _ => none
    else none

/-- Embedding of `convert_to_str`: a `Bytes` value is taken apart by the
driver (`from_value::<Vec<u8>>`, which never fails on `Bytes`) and decoded
with `String::from_utf8`, whose error is discarded by `.ok()`; every other
variant yields `None`.  This function never panics. -/
def convert_to_str (unknown_val : Value) : Option String :=
  match unknown_val with
  | .Bytes bytes => (utf8Decode bytes).map String.mk
  | _ => none

/-- Embedding of `convert_to_str_arr`. -/
def convert_to_str_arr (values : List Value) : List (Option String) :=
  values.map convert_to_str

/-- Embedding of `mysql::consts::ColumnType` (the "Native Column Type"),
with the constructor names of the Rust enumeration. -/
inductive ColumnType where
  | MYSQL_TYPE_DECIMAL
  | MYSQL_TYPE_TINY
  | MYSQL_TYPE_SHORT
  | MYSQL_TYPE_LONG
  | MYSQL_TYPE_FLOAT
  | MYSQL_TYPE_DOUBLE
  | MYSQL_TYPE_NULL
  | MYSQL_TYPE_TIMESTAMP
  | MYSQL_TYPE_LONGLONG
  | MYSQL_TYPE_INT24
  | MYSQL_TYPE_DATE
  | MYSQL_TYPE_TIME
  | MYSQL_TYPE_DATETIME
  | MYSQL_TYPE_YEAR
  | MYSQL_TYPE_NEWDATE
  | MYSQL_TYPE_VARCHAR
  | MYSQL_TYPE_BIT
  | MYSQL_TYPE_TIMESTAMP2
  | MYSQL_TYPE_DATETIME2
  | MYSQL_TYPE_TIME2
  | MYSQL_TYPE_TYPED_ARRAY
  | MYSQL_TYPE_UNKNOWN
  | MYSQL_TYPE_JSON
  | MYSQL_TYPE_NEWDECIMAL
  | MYSQL_TYPE_ENUM
  | MYSQL_TYPE_SET
  | MYSQL_TYPE_TINY_BLOB
  | MYSQL_TYPE_MEDIUM_BLOB
  | MYSQL_TYPE_LONG_BLOB
  | MYSQL_TYPE_BLOB
  | MYSQL_TYPE_VAR_STRING
  | MYSQL_TYPE_STRING
  | MYSQL_TYPE_GEOMETRY
deriving Repr, DecidableEq

/-- Textual name of a native type tag, embedding Rust's
`format!("{:?}", col.column_type())` (the derived `Debug` name of the
enumeration variant). -/
def debugName : ColumnType → String
  | .MYSQL_TYPE_DECIMAL => "MYSQL_TYPE_DECIMAL"
  | .MYSQL_TYPE_TINY => "MYSQL_TYPE_TINY"
  | .MYSQL_TYPE_SHORT => "MYSQL_TYPE_SHORT"
  | .MYSQL_TYPE_LONG => "MYSQL_TYPE_LONG"
  | .MYSQL_TYPE_FLOAT => "MYSQL_TYPE_FLOAT"
  | .MYSQL_TYPE_DOUBLE => "MYSQL_TYPE_DOUBLE"
  | .MYSQL_TYPE_NULL => "MYSQL_TYPE_NULL"
  | .MYSQL_TYPE_TIMESTAMP => "MYSQL_TYPE_TIMESTAMP"
  | .MYSQL_TYPE_LONGLONG => "MYSQL_TYPE_LONGLONG"
  | .MYSQL_TYPE_INT24 => "MYSQL_TYPE_INT24"
  | .MYSQL_TYPE_DATE => "MYSQL_TYPE_DATE"
  | .MYSQL_TYPE_TIME => "MYSQL_TYPE_TIME"
  | .MYSQL_TYPE_DATETIME => "MYSQL_TYPE_DATETIME"
  | .MYSQL_TYPE_YEAR => "MYSQL_TYPE_YEAR"
  | .MYSQL_TYPE_NEWDATE => "MYSQL_TYPE_NEWDATE"
  | .MYSQL_TYPE_VARCHAR => "MYSQL_TYPE_VARCHAR"
  | .MYSQL_TYPE_BIT => "MYSQL_TYPE_BIT"
  | .MYSQL_TYPE_TIMESTAMP2 => "MYSQL_TYPE_TIMESTAMP2"
  | .MYSQL_TYPE_DATETIME2 => "MYSQL_TYPE_DATETIME2"
  | .MYSQL_TYPE_TIME2 => "MYSQL_TYPE_TIME2"
  | .MYSQL_TYPE_TYPED_ARRAY => "MYSQL_TYPE_TYPED_ARRAY"
  | .MYSQL_TYPE_UNKNOWN => "MYSQL_TYPE_UNKNOWN"
  | .MYSQL_TYPE_JSON => "MYSQL_TYPE_JSON"
  | .MYSQL_TYPE_NEWDECIMAL => "MYSQL_TYPE_NEWDECIMAL"
  | .MYSQL_TYPE_ENUM => "MYSQL_TYPE_ENUM"
  | .MYSQL_TYPE_SET => "MYSQL_TYPE_SET"
  | .MYSQL_TYPE_TINY_BLOB => "MYSQL_TYPE_TINY_BLOB"
  | .MYSQL_TYPE_MEDIUM_BLOB => "MYSQL_TYPE_MEDIUM_BLOB"
  | .MYSQL_TYPE_LONG_BLOB => "MYSQL_TYPE_LONG_BLOB"
  | .MYSQL_TYPE_BLOB => "MYSQL_TYPE_BLOB"
  | .MYSQL_TYPE_VAR_STRING => "MYSQL_TYPE_VAR_STRING"
  | .MYSQL_TYPE_STRING => "MYSQL_TYPE_STRING"
  | .MYSQL_TYPE_GEOMETRY => "MYSQL_TYPE_GEOMETRY"

/-- Embedding of Rust's `str::strip_suffix` composed with `unwrap_or`:
remove `suf` from the END of `s` when it is a suffix, otherwise keep `s`
unchanged. -/
def stripSuffixOr (s suf : String) : String :=
  if suf.toList.isSuffixOf s.toList then
    String.mk (s.toList.take (s.toList.length - suf.toList.length))
  else s

/-- Display type name of a column, embedding the `_query` title loop:
`format!("{:?}", col.column_type()).strip_suffix("MYSQL_TYPE_")` with the
full name kept when the strip fails (`unwrap_or`). -/
def displayTypeName (t : ColumnType) : String :=
  stripSuffixOr (debugName t) "MYSQL_TYPE_"

/-- Embedding of `arrow::datatypes::DataType`, restricted to the logical
types this dialect uses. -/
inductive DataType where
  | Int64
  | Float64
  | Utf8
  | Binary
deriving Repr, DecidableEq

/-- Schema-side type mapping of `_query`: the `match col.column_type()`
that picks each `Field`'s `DataType`, with `DataType::Binary` as the
fallback arm. -/
def schemaType : ColumnType → DataType
  | .MYSQL_TYPE_TINY | .MYSQL_TYPE_INT24 | .MYSQL_TYPE_SHORT
  | .MYSQL_TYPE_LONG | .MYSQL_TYPE_LONGLONG => .Int64
  | .MYSQL_TYPE_DECIMAL | .MYSQL_TYPE_NEWDECIMAL | .MYSQL_TYPE_FLOAT
  | .MYSQL_TYPE_YEAR | .MYSQL_TYPE_DOUBLE => .Float64
  | .MYSQL_TYPE_DATETIME => .Utf8
  | .MYSQL_TYPE_DATE => .Utf8
  | .MYSQL_TYPE_BLOB => .Utf8
  | .MYSQL_TYPE_STRING | .MYSQL_TYPE_VAR_STRING | .MYSQL_TYPE_VARCHAR => .Utf8
  | _ => .Binary

/-- Embedding of `arrow::datatypes::Field` (named `ArrowField` here since
Mathlib takes the name `Field`): name, data type, nullability. -/
structure ArrowField where
  name : String
  data_type : DataType
  nullable : Bool
deriving Repr, DecidableEq

/-- Embedding of `crate::utils::Title`: display name and display type
string of one result column. -/
structure Title where
  name : String
  type : String
deriving Repr, DecidableEq

/-- A typed arrow array as built by `_query`: `Int64Array`,
`Float64Array` or `StringArray` over optional (nullable) elements.  The
source never constructs a `BinaryArray`. -/
inductive ArrayCol where
  | int64 (xs : List (Option Int))
  | float64 (xs : List (Option MFloat))
  | utf8 (xs : List (Option String))
deriving Repr, DecidableEq

/-- Element data type of a built array. -/
def arrType : ArrayCol → DataType
  | .int64 _ => .Int64
  | .float64 _ => .Float64
  | .utf8 _ => .Utf8

/-- Length of a built array (null entries counted). -/
def arrLen : ArrayCol → Nat
  | .int64 xs => xs.length
  | .float64 xs => xs.length
  | .utf8 xs => xs.length

/-- Number of null entries of a built array. -/
def nullCount : ArrayCol → Nat
  | .int64 xs => (xs.filter Option.isNone).length
  | .float64 xs => (xs.filter Option.isNone).length
  | .utf8 xs => (xs.filter Option.isNone).length

/-- Map a fallible/panicking conversion over a list, stopping at the first
non-`ok` outcome (the iterator semantics of `values.iter().map(..)
.collect()` when the element conversion can panic). -/
def mapQ {α β : Type} (f : α → QResult β) : List α → QResult (List β)
  | [] => .ok []
  | a :: rest =>
    match f a with
    | .ok b =>
      match mapQ f rest with
      | .ok bs => .ok (b :: bs)
      | .err m => .err m
      | .panic => .panic
    | .err m => .err m
    | .panic => .panic

/-- Array-side type mapping of `_query`: the second `match` over the same
native type that picks the array constructor and element conversion for
one column buffer.  Note its fallback arm builds a `StringArray`. -/
def buildArr (type_ : ColumnType) (col : List Value) : QResult ArrayCol :=
  match type_ with
  | .MYSQL_TYPE_TINY | .MYSQL_TYPE_INT24 | .MYSQL_TYPE_SHORT
  | .MYSQL_TYPE_LONG | .MYSQL_TYPE_LONGLONG =>
    (mapQ convert_to_i64 col).map ArrayCol.int64
  | .MYSQL_TYPE_DECIMAL | .MYSQL_TYPE_NEWDECIMAL | .MYSQL_TYPE_FLOAT
  | .MYSQL_TYPE_YEAR | .MYSQL_TYPE_DOUBLE =>
    (mapQ convert_to_f64 col).map ArrayCol.float64
  | .MYSQL_TYPE_STRING | .MYSQL_TYPE_VAR_STRING | .MYSQL_TYPE_VARCHAR =>
    .ok (ArrayCol.utf8 (convert_to_str_arr col))
  | .MYSQL_TYPE_DATETIME => .ok (ArrayCol.utf8 (convert_to_str_arr col))
  | .MYSQL_TYPE_DATE => .ok (ArrayCol.utf8 (convert_to_str_arr col))
  | .MYSQL_TYPE_BLOB => .ok (ArrayCol.utf8 (convert_to_str_arr col))
  | _ => .ok (ArrayCol.utf8 (convert_to_str_arr col))

/-- One step of the transposition loop `tables[i].push(val)`: append `val`
to buffer `i`, panicking (Rust index-out-of-bounds) when `i` is not a
valid buffer index. -/
def pushCell (tables : List (List Value)) (i : Nat) (v : Value) :
    Option (List (List Value)) :=
  match tables, i with
  | [], _ => none
  | t :: ts, 0 => some ((t ++ [v]) :: ts)
  | t :: ts, n + 1 => (pushCell ts n v).map fun ts2 => t :: ts2

/-- The inner loop of the Row Materializer from buffer index `i` on: for
each cell of the row (the row exposes its own column list, so the loop
runs over the row's cells) push the cell value onto the matching buffer. -/
def pushRowFrom (tables : List (List Value)) (i : Nat) (row : List Value) :
    Option (List (List Value)) :=
  match row with
  | [] => some tables
  | v :: vs => (pushCell tables i v).bind fun ts2 => pushRowFrom ts2 (i + 1) vs

/-- Push one streamed row (`for (i, _col) in row.columns_ref()..` with
`tables[i].push(row.get(i).unwrap())`). -/
def pushRow (tables : List (List Value)) (row : List Value) :
    Option (List (List Value)) :=
  pushRowFrom tables 0 row

/-- The outer streaming loop of the Row Materializer: push every row of
the (flattened) cursor onto the column buffers.  `none` models a panic. -/
def fillTables (tables : List (List Value)) (rows : List (List Value)) :
    Option (List (List Value)) :=
  match rows with
  | [] => some tables
  | r :: rs => (pushRow tables r).bind fun ts2 => fillTables ts2 rs

/-- Embedding of `arrow::record_batch::RecordBatch`: schema fields, one
array per field, and the row count. -/
structure RecordBatch where
  fields : List ArrowField
  columns : List ArrayCol
  row_count : Nat
deriving Repr, DecidableEq

/-- Embedding of `RecordBatch::try_new`'s validation: the column count
must match the schema, at least one column must exist to fix the row
count, each array's element type must equal its field's declared type,
each array's length must equal the row count, and a non-nullable field
must have no nulls.  Error messages paraphrase arrow's. -/
def tryNew (fields : List ArrowField) (cols : List ArrayCol) :
    QResult RecordBatch :=
  if cols.length ≠ fields.length then
    .err "number of columns must match number of fields in schema"
  else
    match cols with
    | [] => .err "must either specify a row count or at least one column"
    | c0 :: _ =>
      if (fields.zip cols).all fun fc =>
          arrType fc.2 == fc.1.data_type && arrLen fc.2 == arrLen c0 &&
            (fc.1.nullable || nullCount fc.2 == 0) then
        .ok { fields := fields, columns := cols, row_count := arrLen c0 }
      else .err "column types must match schema types"

/-- Embedding of `crate::utils::RawArrowData` (the "Columnar Batch"):
total row count, the record batch, the per-column titles and the SQL
text that produced it. -/
structure RawArrowData where
  total : Nat
  batch : RecordBatch
  titles : Option (List Title)
  sql : Option String
deriving Repr, DecidableEq

/-- One result column as described by the cursor header: `col.name_str()`
and `col.column_type()`. -/
structure MyColumn where
  name_str : String
  column_type : ColumnType
deriving Repr, DecidableEq

/-- Embedding of `MySqlConnection::_query`.  The driver interaction is
made explicit: `cols` is the cursor's column header and `rows` the rows
streamed by `result.iter()` / `result_set.flatten()` (every row exposes
the same `k` columns as the header; multiple result sets appear
concatenated).  The function builds titles and schema fields from the
header, transposes the rows into per-column buffers, converts each buffer
by the array-side type match, and assembles the record batch through
`RecordBatch::try_new`. -/
def _query (sql : String) (cols : List MyColumn) (rows : List (List Value)) :
    QResult RawArrowData :=
  match fillTables (List.replicate cols.length []) rows with
  | none => .panic
  | some tables =>
    match mapQ (fun tc => buildArr tc.1 tc.2)
        ((cols.map MyColumn.column_type).zip tables) with
    | .err m => .err m
    | .panic => .panic
    | .ok arrs =>
      match tryNew
          (cols.map fun c =>
            { name := c.name_str, data_type := schemaType c.column_type,
              nullable := true }) arrs with
      | .err m => .err m
      | .panic => .panic
      | .ok batch =>
        .ok { total := batch.row_count, batch := batch,
              titles := some (cols.map fun c =>
                { name := c.name_str, type := displayTypeName c.column_type }),
              sql := some sql }

/-- Embedding of `Connection::query` for this dialect: the `_limit` and
`_offset` parameters are accepted and ignored, and `_query` runs the SQL
verbatim. -/
def query (sql : String) (_limit _offset : Nat) (cols : List MyColumn)
    (rows : List (List Value)) : QResult RawArrowData :=
  _query sql cols rows

/-- Embedding of `Connection::query_all`: `_query` on the SQL verbatim. -/
def query_all (sql : String) (cols : List MyColumn)
    (rows : List (List Value)) : QResult RawArrowData :=
  _query sql cols rows

/-- A single-quote character as a string (code 39), used when embedding
the SQL templates, which quote interpolated values. -/
def sqlQuote : String := String.singleton (Char.ofNat 39)

/-- Embedding of Rust's `str::contains(char)`. -/
def containsChar (s : String) (c : Char) : Bool := s.toList.contains c

/-- Split a character list at the first occurrence of `c`, embedding
`splitn(2, c)` for an input that contains `c`: everything before the
first `c`, and everything after it (later occurrences kept). -/
def splitAtFirst (c : Char) : List Char → List Char × List Char
  | [] => ([], [])
  | x :: xs =>
    if x = c then ([], xs)
    else
      let p := splitAtFirst c xs
      (x :: p.1, p.2)

/-- The SQL text generated by `Connection::show_column`: when no schema is
given and the table name contains a dot, the name is split at the first
dot into database and bare table; otherwise the database is the EMPTY
string (the given schema argument is never read) and the table name is
kept whole.  The two parts are interpolated, single-quoted, into the
catalog query. -/
def show_column_sql (schema : Option String) (table : String) : String :=
  let p :=
    if schema.isNone && containsChar table (Char.ofNat 46) then
      let parts := splitAtFirst (Char.ofNat 46) table.toList
      (String.mk parts.1, String.mk parts.2)
    else ("", table)
  "select * from information_schema.columns where table_schema=" ++
    sqlQuote ++ p.1 ++ sqlQuote ++ " and table_name=" ++ sqlQuote ++ p.2 ++
    sqlQuote

/-- The SQL text built by `MySqlConnection::_table_row_count`:
`select count(*) from <table>`, with ` where <cond>` appended by string
interpolation exactly when the where-clause is non-empty.  Nothing is
escaped. -/
def _table_row_count_sql (table cond : String) : String :=
  let sql := "select count(*) from " ++ table
  if cond = "" then sql else sql ++ " where " ++ cond

/-- Embedding of the driver's `from_value::<usize>` (64-bit target):
non-negative `Int`, any `UInt`, or `Bytes` parsing as an unsigned
integer; every other value makes `from_value` panic. -/
def from_value_usize : Value → QResult Nat
  | .Int i => if 0 ≤ i then .ok i.toNat else .panic
  | .UInt u => .ok u
  | .Bytes b =>
    match btoiU64 b with
    | some n => .ok n
    | none => .panic
  | _ => .panic

/-- Embedding of the driver's `from_row::<usize>`: the row must have
exactly one column, whose value is converted by `from_value::<usize>`;
the conversion panics otherwise. -/
def from_row_usize : List Value → QResult Nat
  | [v] => from_value_usize v
  | _ => .panic

/-- Embedding of `query_first::<usize, _>` over the rows the driver
streams back: `Ok(None)` when there is no row, otherwise the first row
converted by `from_row` (which can panic). -/
def query_first_usize (rows : List (List Value)) : QResult (Option Nat) :=
  match rows.head? with
  | none => .ok none
  | some row => (from_row_usize row).map some

/-- Embedding of `Connection::query_count` for this dialect, with the
driver's row stream explicit: `Ok(total)` when `query_first` yields a
first value, and the error `"null"` (`anyhow!("null")`) when the query
yields no row. -/
def query_count (rows : List (List Value)) : QResult Nat :=
  match query_first_usize rows with
  | .ok (some total) => .ok total
  | .ok none => .err "null"
  | .err m => .err m
  | .panic => .panic

/-- Embedding of `MySqlConnection::_table_row_count` over the driver's
row stream: the first row of the count query, or the error
`"No value found"` when there is none. -/
def _table_row_count (table cond : String) (rows : List (List Value)) :
    QResult Nat :=
  match query_first_usize rows with
  | .ok (some n) => .ok n
  | .ok none => .err "No value found"
  | .err m => .err m
  | .panic => .panic

/-- One row of the flat column catalog consumed by `_all_columns`:
`(table_schema, table_name, column_name, column_type)`. -/
structure ColRow where
  table_schema : String
  table_name : String
  column_name : String
  column_type : String
deriving Repr, DecidableEq

/-- Embedding of `crate::utils::Metadata`: one table with its ordered
`(column name, column type)` list. -/
structure Metadata where
  database : String
  table : String
  columns : List (String × String)
deriving Repr, DecidableEq

/-- Grouping key of a catalog row: `(database, table)`. -/
def keyOf (r : ColRow) : String × String := (r.table_schema, r.table_name)

/-- Column payload of a catalog row: `(column name, column type)`. -/
def colOf (r : ColRow) : String × String := (r.column_name, r.column_type)

/-- One step of the grouping loop
`groups.entry((db, table)).or_insert_with(Vec::new).push((col, dtype))`:
append the column to the existing group of the key, or add a fresh
group.  The `HashMap` is embedded as an association list holding exactly
the map's key/value pairs; only its iteration order is fixed here (Rust's
`HashMap::into_iter` order is unspecified), so the theorems below state
order-independent facts about the entries. -/
def addRow (groups : List ((String × String) × List (String × String)))
    (key : String × String) (c : String × String) :
    List ((String × String) × List (String × String)) :=
  match groups with
  | [] => [(key, [c])]
  | (k, cs) :: rest =>
    if k = key then (k, cs ++ [c]) :: rest else (k, cs) :: addRow rest key c

/-- The grouping loop of `_all_columns` over all catalog rows. -/
def groupRows (rows : List ColRow) :
    List ((String × String) × List (String × String)) :=
  rows.foldl (fun g r => addRow g (keyOf r) (colOf r)) []

/-- Embedding of `MySqlConnection::_all_columns` over the catalog rows
the driver returns: group the flat rows by `(database, table)` and
materialize one `Metadata` entry per group. -/
def _all_columns (rows : List ColRow) : List Metadata :=
  (groupRows rows).map fun kc =>
    { database := kc.1.1, table := kc.1.2, columns := kc.2 }

/-- Look a key up in the association-list embedding of the grouping map. -/
def findGroup :
    List ((String × String) × List (String × String)) → String × String →
      Option (List (String × String))
  | [], _ => none
  | (k0, cs) :: rest, k => if k0 = k then some cs else findGroup rest k

/-- The columns the catalog lists for a key, in catalog row order. -/
def colsFor (rows : List ColRow) (k : String × String) :
    List (String × String) :=
  (rows.filter fun r => decide (keyOf r = k)).map colOf

/-- Does any catalog row carry this `(database, table)` key? -/
def hasKey (rows : List ColRow) (k : String × String) : Bool :=
  rows.any fun r => decide (keyOf r = k)

/-- C2 (code bug, evaluated): for a native type with no explicit mapping
rule (here `MYSQL_TYPE_BIT`) the schema match declares `Binary` while the
array match builds a `StringArray` (`Utf8`), so the declared schema type
and the array's element type disagree and `RecordBatch::try_new` rejects
the batch: a query with a `BIT` column always fails. -/
theorem c2_fallback_type_mismatch :
    schemaType ColumnType.MYSQL_TYPE_BIT = DataType.Binary ∧
      buildArr ColumnType.MYSQL_TYPE_BIT [Value.NULL] =
        QResult.ok (ArrayCol.utf8 [none]) ∧
      arrType (ArrayCol.utf8 [none]) ≠ schemaType ColumnType.MYSQL_TYPE_BIT ∧
      _query "select b from t"
          [{ name_str := "b", column_type := ColumnType.MYSQL_TYPE_BIT }]
          [[Value.NULL]] =
        QResult.err "column types must match schema types" := by
  decide

/-- C4 (counterexample): `show_column(None, "db.tbl")` quotes `db` as the
schema while `show_column(Some "db", "tbl")` quotes the empty string (the
schema argument is never read), so the two generated SQL texts differ. -/
theorem c4_show_column_counterexample :
    show_column_sql none "db.tbl" ≠ show_column_sql (some "db") "tbl" := by
  decide

/-- C4 (amended): when a schema argument is given, its value is ignored —
any two schema arguments generate the same SQL text, and that text equals
the one generated with no schema argument whenever the table name
contains no dot. -/
theorem c4_show_column_amended :
    (∀ s1 s2 t, show_column_sql (some s1) t = show_column_sql (some s2) t) ∧
      (∀ s t, containsChar t (Char.ofNat 46) = false →
        show_column_sql (some s) t = show_column_sql none t) := by
  constructor
  · intro s1 s2 t
    simp [show_column_sql]
  · intro s t h
    simp [show_column_sql, h]

/-- C4 (witness): concrete instances of the amended statement at
schemas `db`, `other` and table `tbl`. -/
theorem c4_show_column_amended_witness :
    show_column_sql (some "db") "tbl" = show_column_sql (some "other") "tbl" ∧
      (containsChar "tbl" (Char.ofNat 46) = false ∧
        show_column_sql (some "db") "tbl" = show_column_sql none "tbl") :=
  ⟨c4_show_column_amended.1 "db" "other" "tbl",
    by decide, c4_show_column_amended.2 "db" "tbl" (by decide)⟩

/-- C5 (code bug, evaluated): the source strips `"MYSQL_TYPE_"` as a
SUFFIX (`strip_suffix`), which no debug name ends with, so the full name
is always kept: the title of a `MYSQL_TYPE_TINY` column is
`"MYSQL_TYPE_TINY"`, not the prefix-stripped `"TINY"` the claim
requires — and in general the display name is the unmodified debug name. -/
theorem c5_display_name_never_stripped :
    (∀ t, displayTypeName t = debugName t) ∧
      displayTypeName ColumnType.MYSQL_TYPE_TINY = "MYSQL_TYPE_TINY" ∧
      displayTypeName ColumnType.MYSQL_TYPE_TINY ≠ "TINY" := by
  refine ⟨?_, by decide, by decide⟩
  intro t
  cases t <;> decide

/-- C7: `_table_row_count` builds `select count(*) from <table>` with no
where clause for an empty condition, and appends ` where <cond>` by plain
string interpolation (no escaping) for a non-empty one. -/
theorem c7_table_row_count_sql :
    ∀ t w : String,
      _table_row_count_sql t "" = "select count(*) from " ++ t ∧
        (w ≠ "" →
          _table_row_count_sql t w =
            "select count(*) from " ++ t ++ " where " ++ w) := by
  intro t w
  constructor
  · simp [_table_row_count_sql]
  · intro h
    simp [_table_row_count_sql, h]

/-- C7 (witness): the two concrete examples of the spec, with an
unescaped where-clause. -/
theorem c7_table_row_count_sql_witness :
    _table_row_count_sql "orders" "" = "select count(*) from " ++ "orders" ∧
      _table_row_count_sql "orders" "status=1" =
        "select count(*) from " ++ "orders" ++ " where " ++ "status=1" :=
  ⟨(c7_table_row_count_sql "orders" "status=1").1,
    (c7_table_row_count_sql "orders" "status=1").2 (by decide)⟩

/-- C8: `query(sql, limit, offset)` ignores the pagination parameters and
returns exactly what `query_all(sql)` returns for the same driver
response — both run `_query` on the caller's SQL verbatim. -/
theorem c8_query_ignores_pagination :
    ∀ (sql : String) (limit offset : Nat) (cols : List MyColumn)
      (rows : List (List Value)),
      query sql limit offset cols rows = query_all sql cols rows := by
  intro sql limit offset cols rows
  rfl

/-- C6: `query_count` over a query yielding zero rows returns the
"no value" error (`anyhow!("null")`), never a default or zero count; and
it returns `Ok(n)` exactly when the stream has a first row whose single
value converts to an unsigned count. -/
theorem c6_query_count_empty_err :
    query_count [] = QResult.err "null" ∧
      (∀ n, query_count [] ≠ QResult.ok n) ∧
      (∀ rows n, query_count rows = QResult.ok n ↔
        ∃ row rest, rows = row :: rest ∧ from_row_usize row = QResult.ok n) := by
  refine ⟨by decide, ?_, ?_⟩
  · intro n
    simp [query_count, query_first_usize]
  · intro rows n
    cases rows with
    | nil => simp [query_count, query_first_usize]
    | cons r rs =>
      cases h : from_row_usize r <;>
        simp [query_count, query_first_usize, QResult.map, h]

/-- Pushing at index `i + 1` leaves the first buffer untouched. -/
theorem pushCell_succ (t : List Value) (ts : List (List Value)) (i : Nat)
    (v : Value) :
    pushCell (t :: ts) (i + 1) v = (pushCell ts i v).map fun ts2 => t :: ts2 :=
  rfl

/-- Row filling from index `i + 1` on never touches the first buffer. -/
theorem pushRowFrom_succ (t : List Value) :
    ∀ (row : List Value) (ts : List (List Value)) (i : Nat),
      pushRowFrom (t :: ts) (i + 1) row =
        (pushRowFrom ts i row).map fun ts2 => t :: ts2 := by
  intro row
  induction row with
  | nil => intro ts i; rfl
  | cons v vs ih =>
    intro ts i
    show (pushCell (t :: ts) (i + 1) v).bind
        (fun ts2 => pushRowFrom ts2 (i + 1 + 1) vs) = _
    rw [pushCell_succ]
    cases h : pushCell ts i v with
    | none => simp [pushRowFrom, h]
    | some ts2 =>
      simp [pushRowFrom, h]
      exact ih ts2 (i + 1)

/-- When a row has exactly one cell per buffer, pushing it appends one
value to every buffer, element-wise. -/
theorem pushRow_eq_zipWith :
    ∀ (ts : List (List Value)) (row : List Value), row.length = ts.length →
      pushRow ts row = some (List.zipWith (fun t v => t ++ [v]) ts row) := by
  intro ts
  induction ts with
  | nil =>
    intro row h
    cases row with
    | nil => rfl
    | cons v vs => simp at h
  | cons t ts ih =>
    intro row h
    cases row with
    | nil => simp at h
    | cons v vs =>
      have hlen : vs.length = ts.length := by simpa using h
      have h0 : pushRow (t :: ts) (v :: vs) =
          pushRowFrom ((t ++ [v]) :: ts) 1 vs := rfl
      rw [h0, pushRowFrom_succ]
      have h1 : pushRowFrom ts 0 vs = pushRow ts vs := rfl
      rw [h1, ih vs hlen]
      simp [List.zipWith]

/-- Element-wise appending adds one to every buffer length. -/
theorem zipWith_append_map_length :
    ∀ (ts : List (List Value)) (row : List Value), row.length = ts.length →
      (List.zipWith (fun t v => t ++ [v]) ts row).map List.length =
        ts.map fun t => t.length + 1 := by
  intro ts
  induction ts with
  | nil => intro row h; simp
  | cons t ts ih =>
    intro row h
    cases row with
    | nil => simp at h
    | cons v vs => simp [ih vs (by simpa using h)]

/-- The Row Materializer succeeds whenever every streamed row has one
cell per buffer, and then every buffer grows by exactly the number of
rows. -/
theorem fillTables_ok :
    ∀ (rows : List (List Value)) (ts : List (List Value)),
      (∀ r ∈ rows, r.length = ts.length) →
      ∃ ts2, fillTables ts rows = some ts2 ∧
        ts2.map List.length = ts.map fun t => t.length + rows.length := by
  intro rows
  induction rows with
  | nil => intro ts _; exact ⟨ts, rfl, by simp⟩
  | cons r rs ih =>
    intro ts h
    have hr : r.length = ts.length := h r (by simp)
    have hpush := pushRow_eq_zipWith ts r hr
    have hlenmap : (List.zipWith (fun t v => t ++ [v]) ts r).map List.length =
        ts.map fun t => t.length + 1 := zipWith_append_map_length ts r hr
    have hzlen : (List.zipWith (fun t v => t ++ [v]) ts r).length = ts.length := by
      have h2 := congrArg List.length hlenmap
      simpa using h2
    have hrs : ∀ r2 ∈ rs, r2.length =
        (List.zipWith (fun t v => t ++ [v]) ts r).length := by
      intro r2 hmem
      rw [hzlen]
      exact h r2 (by simp [hmem])
    obtain ⟨ts2, hfill, hmap⟩ := ih _ hrs
    refine ⟨ts2, ?_, ?_⟩
    · show (pushRow ts r).bind (fun x => fillTables x rs) = some ts2
      rw [hpush]
      simpa using hfill
    · rw [hmap]
      have h1 : (List.zipWith (fun t v => t ++ [v]) ts r).map
            (fun t => t.length + rs.length) =
          ((List.zipWith (fun t v => t ++ [v]) ts r).map List.length).map
            (· + rs.length) := by
        simp [List.map_map]
      rw [h1, hlenmap, List.map_map]
      have h3 : ((fun n => n + rs.length) ∘ fun t : List Value => t.length + 1) =
          fun t : List Value => t.length + (r :: rs).length := by
        funext t
        simp [Function.comp]
        omega
      rw [h3]

/-- A successful `mapQ` preserves the list length. -/
theorem mapQ_ok_length {α β : Type} (f : α → QResult β) :
    ∀ (l : List α) (l2 : List β),
      mapQ f l = QResult.ok l2 → l2.length = l.length := by
  intro l
  induction l with
  | nil =>
    intro l2 h
    simp only [mapQ] at h
    cases h
    rfl
  | cons a rest ih =>
    intro l2 h
    simp only [mapQ] at h
    cases hf : f a <;> rw [hf] at h
    case err m => cases h
    case panic => cases h
    case ok b =>
      cases hm : mapQ f rest <;> rw [hm] at h
      case err m => cases h
      case panic => cases h
      case ok bs =>
        cases h
        simp [ih bs hm]

/-- Inversion for a successful `QResult.map`. -/
theorem QResult.map_ok_inv {α β : Type} {f : α → β} {q : QResult α} {b : β}
    (h : q.map f = QResult.ok b) : ∃ a, q = QResult.ok a ∧ b = f a := by
  cases q with
  | ok a =>
    simp [QResult.map] at h
    exact ⟨a, rfl, h.symm⟩
  | err m => simp [QResult.map] at h
  | panic => simp [QResult.map] at h

/-- A successfully built array has exactly one entry per buffered cell
(nulls included), whatever the column's native type. -/
theorem buildArr_length :
    ∀ (t : ColumnType) (col : List Value) (arr : ArrayCol),
      buildArr t col = QResult.ok arr → arrLen arr = col.length := by
  intro t col arr h
  cases t <;> simp only [buildArr] at h <;>
    first
      | (obtain ⟨xs, hq, hx⟩ := QResult.map_ok_inv h
         subst hx
         simpa [arrLen] using mapQ_ok_length _ col xs hq)
      | (cases h
         simp [arrLen, convert_to_str_arr])

/-- A successful batch of per-column conversions has one array per
column, each of the common buffer length. -/
theorem buildAll_lengths :
    ∀ (l : List (ColumnType × List Value)) (arrs : List ArrayCol) (n : Nat),
      mapQ (fun tc => buildArr tc.1 tc.2) l = QResult.ok arrs →
      (∀ tc ∈ l, tc.2.length = n) →
      arrs.length = l.length ∧ ∀ a ∈ arrs, arrLen a = n := by
  intro l
  induction l with
  | nil =>
    intro arrs n h _
    simp only [mapQ] at h
    cases h
    simp
  | cons tc rest ih =>
    intro arrs n h hall
    simp only [mapQ] at h
    cases hb : buildArr tc.1 tc.2 <;> rw [hb] at h
    case err m => cases h
    case panic => cases h
    case ok b =>
      cases hm : mapQ (fun tc => buildArr tc.1 tc.2) rest <;> rw [hm] at h
      case err m => cases h
      case panic => cases h
      case ok bs =>
        cases h
        obtain ⟨hlen, hmem⟩ := ih bs n hm fun tc2 h2 => hall tc2 (by simp [h2])
        refine ⟨by simp [hlen], ?_⟩
        intro a ha
        rcases List.mem_cons.mp ha with rfl | ha2
        · have := buildArr_length tc.1 tc.2 a hb
          rw [this]
          exact hall tc (by simp)
        · exact hmem a ha2

/-- Inversion for a successful `RecordBatch::try_new`: the batch holds
the given fields and arrays, and its row count is the first array's
length. -/
theorem tryNew_ok_inv :
    ∀ (fields : List ArrowField) (cols : List ArrayCol) (batch : RecordBatch),
      tryNew fields cols = QResult.ok batch →
      batch.fields = fields ∧ batch.columns = cols ∧
        ∃ c0 rest, cols = c0 :: rest ∧ batch.row_count = arrLen c0 := by
  intro fields cols batch h
  unfold tryNew at h
  split at h
  · cases h
  · split at h
    · cases h
    · split at h
      · cases h
        exact ⟨rfl, rfl, _, _, rfl, rfl⟩
      · cases h

/-- C3: for every successfully executed query (with every streamed row
exposing the cursor's column count, as the driver guarantees), the
returned batch has as many schema fields as arrays and as titles, every
array's length equals the number of streamed rows (nulls counted), and
the reported total equals that same number. -/
theorem c3_batch_invariants :
    ∀ (sql : String) (cols : List MyColumn) (rows : List (List Value))
      (r : RawArrowData),
      (∀ row ∈ rows, row.length = cols.length) →
      _query sql cols rows = QResult.ok r →
      r.batch.fields.length = cols.length ∧
        r.batch.columns.length = cols.length ∧
        (∃ ts, r.titles = some ts ∧ ts.length = cols.length) ∧
        (∀ a ∈ r.batch.columns, arrLen a = rows.length) ∧
        r.total = rows.length := by
  intro sql cols rows r hrows hq
  unfold _query at hq
  split at hq
  · cases hq
  rename_i tables hf
  split at hq
  · cases hq
  · cases hq
  rename_i arrs hm
  split at hq
  · cases hq
  · cases hq
  rename_i batch ht
  cases hq
  have hrows2 : ∀ row ∈ rows,
      row.length = (List.replicate cols.length ([] : List Value)).length := by
    intro row hmm2
    simpa using hrows row hmm2
  obtain ⟨ts2, hfill2, hmap⟩ := fillTables_ok rows _ hrows2
  rw [hf] at hfill2
  have htables : tables = ts2 := Option.some.inj hfill2
  subst htables
  have hmap2 : tables.map List.length = List.replicate cols.length rows.length := by
    simpa using hmap
  have htlen : tables.length = cols.length := by
    have h2 := congrArg List.length hmap2
    simpa using h2
  have hmem : ∀ t ∈ tables, t.length = rows.length := by
    intro t h3
    have h4 : t.length ∈ tables.map List.length := List.mem_map_of_mem _ h3
    rw [hmap2] at h4
    exact List.eq_of_mem_replicate h4
  have hziplen : ((cols.map MyColumn.column_type).zip tables).length =
      cols.length := by
    simp [htlen]
  have hcells : ∀ tc ∈ (cols.map MyColumn.column_type).zip tables,
      (tc.2 : List Value).length = rows.length := by
    intro tc htc
    exact hmem tc.2 (List.of_mem_zip htc).2
  obtain ⟨harrlen, harrs⟩ := buildAll_lengths _ arrs rows.length hm hcells
  rw [hziplen] at harrlen
  obtain ⟨hbf, hbc, c0, rest, hc0, hrc⟩ := tryNew_ok_inv _ _ _ ht
  refine ⟨?_, ?_, ?_, ?_, ?_⟩
  · show batch.fields.length = cols.length
    rw [hbf]
    simp
  · show batch.columns.length = cols.length
    rw [hbc, harrlen]
  · exact ⟨_, rfl, by simp⟩
  · intro a ha
    have ha2 : a ∈ batch.columns := ha
    rw [hbc] at ha2
    exact harrs a ha2
  · show batch.row_count = rows.length
    rw [hrc]
    refine harrs c0 ?_
    rw [hc0]
    simp

/-- C3 (witness): a two-row, one-column Integer64 query evaluated
concretely — the row-shape hypothesis and the query's success are
discharged by evaluation and the reported total follows by the theorem. -/
theorem c3_batch_invariants_witness :
    (∀ row ∈ ([[Value.Int 1], [Value.NULL]] : List (List Value)),
        row.length = 1) ∧
      ({ total := 2,
         batch := { fields := [{ name := "a", data_type := DataType.Int64,
                                 nullable := true }],
                    columns := [ArrayCol.int64 [some 1, none]],
                    row_count := 2 },
         titles := some [{ name := "a", type := "MYSQL_TYPE_LONG" }],
         sql := some "select a from t" } : RawArrowData).total = 2 :=
  ⟨by decide,
    (c3_batch_invariants "select a from t"
      [{ name_str := "a", column_type := ColumnType.MYSQL_TYPE_LONG }]
      [[Value.Int 1], [Value.NULL]]
      { total := 2,
        batch := { fields := [{ name := "a", data_type := DataType.Int64,
                                nullable := true }],
                   columns := [ArrayCol.int64 [some 1, none]],
                   row_count := 2 },
        titles := some [{ name := "a", type := "MYSQL_TYPE_LONG" }],
        sql := some "select a from t" }
      (by decide) (by decide)).2.2.2.2⟩

/-- C10: every schema field of every batch a query operation successfully
builds is declared nullable, whatever the column's native type. -/
theorem c10_schema_fields_all_nullable :
    ∀ (sql : String) (cols : List MyColumn) (rows : List (List Value))
      (r : RawArrowData),
      _query sql cols rows = QResult.ok r →
      ∀ f ∈ r.batch.fields, f.nullable = true := by
  intro sql cols rows r hq f hf
  unfold _query at hq
  split at hq
  · cases hq
  rename_i tables h1
  split at hq
  · cases hq
  · cases hq
  rename_i arrs h2
  split at hq
  · cases hq
  · cases hq
  rename_i batch h3
  cases hq
  obtain ⟨hbf, -, -⟩ := tryNew_ok_inv _ _ _ h3
  have hf2 : f ∈ batch.fields := hf
  rw [hbf] at hf2
  obtain ⟨c, -, rfl⟩ := List.mem_map.mp hf2
  rfl

/-- C10 (witness): a one-column varchar query evaluated concretely; its
single schema field, picked out of the batch by the theorem, is
nullable. -/
theorem c10_schema_fields_all_nullable_witness :
    _query "q" [{ name_str := "s", column_type := ColumnType.MYSQL_TYPE_VARCHAR }]
        [[Value.Bytes [104, 105]]] =
      QResult.ok
        { total := 1,
          batch := { fields := [{ name := "s", data_type := DataType.Utf8,
                                  nullable := true }],
                     columns := [ArrayCol.utf8 [some "hi"]],
                     row_count := 1 },
          titles := some [{ name := "s", type := "MYSQL_TYPE_VARCHAR" }],
          sql := some "q" } ∧
      ({ name := "s", data_type := DataType.Utf8,
         nullable := true } : ArrowField).nullable = true :=
  ⟨by decide,
    c10_schema_fields_all_nullable "q"
      [{ name_str := "s", column_type := ColumnType.MYSQL_TYPE_VARCHAR }]
      [[Value.Bytes [104, 105]]]
      { total := 1,
        batch := { fields := [{ name := "s", data_type := DataType.Utf8,
                                nullable := true }],
                   columns := [ArrayCol.utf8 [some "hi"]],
                   row_count := 1 },
        titles := some [{ name := "s", type := "MYSQL_TYPE_VARCHAR" }],
        sql := some "q" }
      (by decide)
      { name := "s", data_type := DataType.Utf8, nullable := true }
      (by decide)⟩

/-- Appending to a key's group: looking the same key up afterwards finds
the group extended by the new column (a fresh group when absent). -/
theorem findGroup_addRow_self :
    ∀ (g : List ((String × String) × List (String × String)))
      (k : String × String) (c : String × String),
      findGroup (addRow g k c) k = some ((findGroup g k).getD [] ++ [c]) := by
  intro g k c
  induction g with
  | nil => simp [addRow, findGroup]
  | cons e rest ih =>
    obtain ⟨k0, cs⟩ := e
    by_cases h : k0 = k
    · subst h
      simp [addRow, findGroup]
    · simp [addRow, findGroup, h, ih]

/-- Appending to one key's group leaves every other key's lookup
unchanged. -/
theorem findGroup_addRow_other :
    ∀ (g : List ((String × String) × List (String × String)))
      (k c k2 : _), k2 ≠ k →
      findGroup (addRow g k c) k2 = findGroup g k2 := by
  intro g k c k2 hne
  induction g with
  | nil => simp [addRow, findGroup, Ne.symm hne]
  | cons e rest ih =>
    obtain ⟨k0, cs⟩ := e
    by_cases h : k0 = k
    · subst h
      simp [addRow, findGroup, Ne.symm hne]
    · simp only [addRow, if_neg h]
      by_cases h2 : k0 = k2
      · simp [findGroup, h2]
      · simp [findGroup, h2, ih]

/-- A key is absent from the association list exactly when its lookup
fails. -/
theorem findGroup_eq_none_iff :
    ∀ (g : List ((String × String) × List (String × String))) (k : _),
      findGroup g k = none ↔ k ∉ g.map Prod.fst := by
  intro g k
  induction g with
  | nil => simp [findGroup]
  | cons e rest ih =>
    obtain ⟨k0, cs⟩ := e
    by_cases h : k0 = k
    · subst h
      simp [findGroup]
    · simp [findGroup, h, ih, Ne.symm h]

/-- The keys after `addRow`: unchanged when the key already has a group,
extended by the key otherwise. -/
theorem addRow_map_fst :
    ∀ (g : List ((String × String) × List (String × String))) (k c : _),
      (addRow g k c).map Prod.fst =
        if (findGroup g k).isSome then g.map Prod.fst
        else g.map Prod.fst ++ [k] := by
  intro g k c
  induction g with
  | nil => simp [addRow, findGroup]
  | cons e rest ih =>
    obtain ⟨k0, cs⟩ := e
    by_cases h : k0 = k
    · subst h
      simp [addRow, findGroup]
    · simp only [addRow, if_neg h, List.map_cons, findGroup]
      rw [ih]
      by_cases h3 : (findGroup rest k).isSome
      · simp [h3]
      · simp [h3]

/-- `addRow` preserves distinctness of the group keys. -/
theorem addRow_nodup :
    ∀ (g : List ((String × String) × List (String × String))) (k c : _),
      (g.map Prod.fst).Nodup → ((addRow g k c).map Prod.fst).Nodup := by
  intro g k c hnd
  rw [addRow_map_fst]
  by_cases h : (findGroup g k).isSome
  · simp [h, hnd]
  · have hnotmem : k ∉ g.map Prod.fst :=
      (findGroup_eq_none_iff g k).mp (Option.not_isSome_iff_eq_none.mp h)
    simp [h, List.nodup_append, hnd, hnotmem]

/-- With distinct keys, membership of an entry determines the lookup. -/
theorem findGroup_of_mem_nodup :
    ∀ (g : List ((String × String) × List (String × String))) (k cs : _),
      (g.map Prod.fst).Nodup → (k, cs) ∈ g → findGroup g k = some cs := by
  intro g k cs hnd hmem
  induction g with
  | nil => cases hmem
  | cons e rest ih =>
    obtain ⟨k0, cs0⟩ := e
    rcases List.mem_cons.mp hmem with heq | htail
    · cases heq
      simp [findGroup]
    · have hk : k ∈ rest.map Prod.fst := by
        exact List.mem_map_of_mem Prod.fst htail
      have hne : k0 ≠ k := by
        intro h
        subst h
        exact (List.nodup_cons.mp hnd).1 hk
      simp only [findGroup, if_neg hne]
      exact ih (List.nodup_cons.mp hnd).2 htail

/-- A lookup succeeds exactly when some entry carries the key. -/
theorem findGroup_isSome_iff :
    ∀ (g : List ((String × String) × List (String × String))) (k : _),
      (findGroup g k).isSome ↔ ∃ cs, (k, cs) ∈ g := by
  intro g k
  induction g with
  | nil => simp [findGroup]
  | cons e rest ih =>
    obtain ⟨k0, cs0⟩ := e
    by_cases h : k0 = k
    · subst h
      simp [findGroup]
    · simp [findGroup, h, ih, Ne.symm h]

/-- A key no catalog row carries selects no columns. -/
theorem colsFor_eq_nil_of_not_hasKey :
    ∀ (pre : List ColRow) (k : String × String),
      hasKey pre k = false → colsFor pre k = [] := by
  intro pre k h
  simp only [hasKey, List.any_eq_false] at h
  simp only [colsFor, List.map_eq_nil_iff]
  rw [List.filter_eq_nil_iff]
  exact h

/-- One grouping step preserves the map invariant: keys stay distinct and
every key's group lists exactly the columns of the rows processed so far,
in their row order. -/
theorem addRow_inv (pre : List ColRow) (r : ColRow)
    (g : List ((String × String) × List (String × String)))
    (hnd : (g.map Prod.fst).Nodup)
    (hfind : ∀ k, findGroup g k =
      if hasKey pre k then some (colsFor pre k) else none) :
    ((addRow g (keyOf r) (colOf r)).map Prod.fst).Nodup ∧
      ∀ k, findGroup (addRow g (keyOf r) (colOf r)) k =
        if hasKey (pre ++ [r]) k then some (colsFor (pre ++ [r]) k)
        else none := by
  refine ⟨addRow_nodup g (keyOf r) (colOf r) hnd, ?_⟩
  intro k
  by_cases hk : k = keyOf r
  · rw [hk]
    rw [findGroup_addRow_self]
    have hkey : hasKey (pre ++ [r]) (keyOf r) = true := by
      simp [hasKey]
    have hcols : colsFor (pre ++ [r]) (keyOf r) =
        colsFor pre (keyOf r) ++ [colOf r] := by
      simp [colsFor, List.filter_append]
    rw [if_pos hkey, hcols]
    by_cases hp : hasKey pre (keyOf r) = true
    · rw [hfind (keyOf r), if_pos hp]
      rfl
    · rw [hfind (keyOf r), if_neg hp]
      rw [colsFor_eq_nil_of_not_hasKey pre (keyOf r) (by simpa using hp)]
      rfl
  · rw [findGroup_addRow_other g (keyOf r) (colOf r) k hk]
    have h1 : hasKey (pre ++ [r]) k = hasKey pre k := by
      simp [hasKey, Ne.symm hk]
    have h2 : colsFor (pre ++ [r]) k = colsFor pre k := by
      simp [colsFor, List.filter_append, Ne.symm hk]
    rw [h1, h2]
    exact hfind k

/-- The whole grouping loop keeps the map invariant: distinct keys, and
each key's group holds exactly the columns of that key's catalog rows in
row order. -/
theorem groupRows_inv :
    ∀ (rows pre : List ColRow)
      (g : List ((String × String) × List (String × String))),
      (g.map Prod.fst).Nodup →
      (∀ k, findGroup g k =
        if hasKey pre k then some (colsFor pre k) else none) →
      ((rows.foldl (fun g2 r => addRow g2 (keyOf r) (colOf r)) g).map
          Prod.fst).Nodup ∧
        ∀ k, findGroup
            (rows.foldl (fun g2 r => addRow g2 (keyOf r) (colOf r)) g) k =
          if hasKey (pre ++ rows) k then some (colsFor (pre ++ rows) k)
          else none := by
  intro rows
  induction rows with
  | nil =>
    intro pre g hnd hfind
    refine ⟨hnd, ?_⟩
    intro k
    simpa using hfind k
  | cons r rs ih =>
    intro pre g hnd hfind
    obtain ⟨hnd2, hfind2⟩ := addRow_inv pre r g hnd hfind
    have h3 := ih (pre ++ [r]) _ hnd2 hfind2
    simpa [List.foldl_cons, List.append_assoc] using h3

/-- C9: `_all_columns` produces exactly one Metadata entry per distinct
`(database, table)` key of the catalog rows — keys are distinct, an entry
exists exactly for the keys that occur — and each entry's columns are
exactly that key's catalog rows' columns in their catalog order.  (The
`HashMap` iteration order of the entries themselves is unspecified in
Rust, so nothing is claimed about entry order.) -/
theorem c9_all_columns_grouping :
    ∀ rows : List ColRow,
      ((_all_columns rows).map fun m => (m.database, m.table)).Nodup ∧
        (∀ m ∈ _all_columns rows,
          m.columns = colsFor rows (m.database, m.table)) ∧
        ∀ k : String × String,
          (∃ m ∈ _all_columns rows, (m.database, m.table) = k) ↔
            ∃ r ∈ rows, keyOf r = k := by
  intro rows
  obtain ⟨hnd, hfind⟩ := groupRows_inv rows [] []
    (by simp)
    (by
      intro k
      simp [findGroup, hasKey])
  have hfind2 : ∀ k, findGroup (groupRows rows) k =
      if hasKey rows k then some (colsFor rows k) else none := by
    intro k
    simpa using hfind k
  have hnd2 : ((groupRows rows).map Prod.fst).Nodup := hnd
  have hAeq : ((_all_columns rows).map fun m => (m.database, m.table)) =
      (groupRows rows).map Prod.fst := by
    simp only [_all_columns, List.map_map]
    apply List.map_congr_left
    intro kc _
    rfl
  refine ⟨by rw [hAeq]; exact hnd2, ?_, ?_⟩
  · intro m hm
    obtain ⟨kc, hkc, rfl⟩ := List.mem_map.mp hm
    obtain ⟨k, cs⟩ := kc
    have hfg : findGroup (groupRows rows) k = some cs :=
      findGroup_of_mem_nodup _ k cs hnd2 hkc
    rw [hfind2 k] at hfg
    by_cases hp : hasKey rows k = true
    · rw [if_pos hp] at hfg
      exact (Option.some.inj hfg).symm
    · rw [if_neg hp] at hfg
      cases hfg
  · intro k
    constructor
    · rintro ⟨m, hm, hmk⟩
      obtain ⟨kc, hkc, rfl⟩ := List.mem_map.mp hm
      obtain ⟨k0, cs⟩ := kc
      have hk0 : k0 = k := hmk
      have hfg : findGroup (groupRows rows) k0 = some cs :=
        findGroup_of_mem_nodup _ k0 cs hnd2 hkc
      rw [hfind2 k0] at hfg
      by_cases hp : hasKey rows k0 = true
      · rw [hk0] at hp
        simpa [hasKey, List.any_eq_true] using hp
      · rw [if_neg hp] at hfg
        cases hfg
    · rintro ⟨r, hr, hkr⟩
      have hp : hasKey rows k = true := by
        simp only [hasKey, List.any_eq_true]
        exact ⟨r, hr, by simp [hkr]⟩
      have hsome : (findGroup (groupRows rows) k).isSome := by
        rw [hfind2 k, if_pos hp]
        rfl
      obtain ⟨cs, hmem⟩ := (findGroup_isSome_iff _ k).mp hsome
      refine ⟨{ database := k.1, table := k.2, columns := cs }, ?_, ?_⟩
      · exact List.mem_map_of_mem _ hmem
      · rfl
